import Mathlib

/-!
Verification development for the telemetry normalization and multi-driver
comparison core of the AgenticF1 backend.

The embedding covers two source modules:
- backend/app/telemetry/data_processor.py  (namespace DataProc)
- backend/app/telemetry/speed_extractor.py (namespace SpeedExt)

Numeric values carried by pandas/numpy (floats, Timedelta seconds) are
embedded as rationals; a pandas missing value (NaN) and a value that the
numeric coercions of the source reject (astype failure) are explicit
constructors of the cell type.  A Python exception that a source function
catches is embedded as the none branch of an Option result; a function whose
source can re-raise to its caller returns Except.
-/

namespace DataProc

/-- Cell of a raw telemetry table column: a finite numeric value, a missing
value (NaN, the pandas marker that fillna replaces), or a malformed entry on
which the astype coercions of the source raise. -/
inductive Cell where
  | num (q : ℚ)
  | nan
  | bad
deriving DecidableEq, Repr

/-- Raw telemetry table as handed to the processing pipeline: a row index of
timestamps in seconds and named columns of cells, mirroring the pandas
DataFrame read by data_processor.py.  Well-formed frames have every column of
the same length as the index. -/
structure Frame where
  index : List ℚ
  cols : List (String × List Cell)
deriving DecidableEq, Repr

/-- Number of rows of the frame, the sample count of the source table. -/
def Frame.nrows (df : Frame) : ℕ := df.index.length

/-- Every column of the frame has exactly one cell per row, as pandas
guarantees for a DataFrame. -/
def Frame.wfb (df : Frame) : Bool :=
  df.cols.all (fun p => p.2.length == df.index.length)

/-- Column lookup by name, mirroring the bracket access and the membership
test on telemetry_df.columns in the source. -/
def lookupCol (name : String) : List (String × List Cell) → Option (List Cell)
  | [] => none
  | (k, v) :: rest => if k = name then some v else lookupCol name rest

/-- Membership of a column name in the table, the source test written as
column_name in telemetry_df.columns. -/
def hasCol (df : Frame) (name : String) : Bool :=
  (lookupCol name df.cols).isSome

/-- Embedding of series.fillna(0): a missing value becomes the number zero,
every other cell is unchanged. -/
def fillna : Cell → Cell
  | Cell.nan => Cell.num 0
  | c => c

/-- Coercion of one cell by astype(float): numeric cells pass through and a
malformed cell raises, which the embedding reports as none. -/
def cellFloat : Cell → Option ℚ
  | Cell.num q => some q
  | _ => none

/-- Truncation toward zero, the conversion applied by astype(int) in numpy:
7.9 becomes 7 and -7.9 becomes -7. -/
def truncInt (q : ℚ) : ℤ :=
  if 0 ≤ q then ⌊q⌋ else ⌈q⌉

/-- Coercion of one cell by astype(int) after zero-fill: numeric cells are
truncated toward zero and a malformed cell raises. -/
def cellInt : Cell → Option ℤ
  | Cell.num q => some (truncInt q)
  | _ => none

/-- Coercion of a whole column by astype(float) followed by tolist: the whole
conversion fails if any single cell does, as one raised exception aborts the
vectorized cast. -/
def cellsToFloats : List Cell → Option (List ℚ)
  | [] => some []
  | c :: cs =>
    match cellFloat c, cellsToFloats cs with
    | some q, some qs => some (q :: qs)
    | _, _ => none

/-- Coercion of a whole column by astype(int) followed by tolist. -/
def cellsToInts : List Cell → Option (List ℤ)
  | [] => some []
  | c :: cs =>
    match cellInt c, cellsToInts cs with
    | some z, some zs => some (z :: zs)
    | _, _ => none

/-- Embedding of the inner helper safe_to_list of _process_telemetry_dataframe
for a floating-point dtype: an absent column yields the empty list, a present
column is zero-filled and then coerced, and a coercion failure propagates as
none. -/
def safeToListFloat (df : Frame) (name : String) : Option (List ℚ) :=
  match lookupCol name df.cols with
  | some cells => cellsToFloats (cells.map fillna)
  | none => some []

/-- Embedding of safe_to_list for the integer dtype (nGear, DRS). -/
def safeToListInt (df : Frame) (name : String) : Option (List ℤ) :=
  match lookupCol name df.cols with
  | some cells => cellsToInts (cells.map fillna)
  | none => some []

/-- Conversion of the Time column entries through total_seconds: the source
iterates the column and calls total_seconds on each entry, so an entry that is
not a finite duration makes the conversion fail. -/
def cellsToRats : List Cell → Option (List ℚ)
  | [] => some []
  | Cell.num q :: cs =>
    match cellsToRats cs with
    | some qs => some (q :: qs)
    | none => none
  | _ :: _ => none

/-- Raw time list of the table: the Time column when present, otherwise the
row index.  The source inspects time_data.iloc 0, so an empty table raises,
which the embedding reports as none. -/
def getTimeList (df : Frame) : Option (List ℚ) :=
  if df.index.length = 0 then none
  else
    match lookupCol "Time" df.cols with
    | some cells => cellsToRats cells
    | none => some df.index

/-- NormalizedTelemetry, the TelemetryData pydantic model of models.py:
mandatory channels are plain lists, the optional RPM and DRS channels are
Option, with none as the explicit not-provided marker. -/
structure TelemetryData where
  time : List ℚ
  distance : List ℚ
  speed : List ℚ
  throttle : List ℚ
  brake : List ℚ
  gear : List ℤ
  rpm : Option (List ℚ)
  drs : Option (List ℤ)
deriving DecidableEq, Repr

/-- Normalization of the time list to start from zero: the source subtracts
the first raw timestamp from every element, guarded by a non-emptiness test
on the list. -/
def rebase (timeRaw : List ℚ) : List ℚ :=
  match timeRaw with
  | [] => []
  | t0 :: _ => timeRaw.map (fun t => t - t0)

/-- Embedding of _process_telemetry_dataframe, continued: one failing
conversion aborts the construction of the whole model value, as the one
raised exception aborts the TelemetryData call in the source. -/
def process_telemetry_dataframe (df : Frame) : Option TelemetryData :=
  (getTimeList df).bind fun timeRaw =>
  (safeToListFloat df "Distance").bind fun distance =>
  (safeToListFloat df "Speed").bind fun speed =>
  (safeToListFloat df "Throttle").bind fun throttle =>
  (safeToListFloat df "Brake").bind fun brake =>
  (safeToListInt df "nGear").bind fun gear =>
  (if hasCol df "RPM" then (safeToListFloat df "RPM").map some else some none).bind fun rpm =>
  (if hasCol df "DRS" then (safeToListInt df "DRS").map some else some none).bind fun drs =>
  some { time := rebase timeRaw, distance := distance, speed := speed,
         throttle := throttle, brake := brake, gear := gear,
         rpm := rpm, drs := drs }

/-- Round to the nearest integer with ties to even, the rounding applied by
the Python fixed-point float format. -/
def roundHalfEven (q : ℚ) : ℤ :=
  if q - ⌊q⌋ < 1 / 2 then ⌊q⌋
  else if 1 / 2 < q - ⌊q⌋ then ⌊q⌋ + 1
  else if Even ⌊q⌋ then ⌊q⌋ else ⌊q⌋ + 1

/-- Minutes part of the lap-time format, int (lap_time_seconds // 60). -/
def fmtMinutes (t : ℚ) : ℤ := ⌊t / 60⌋

/-- Seconds part of the lap-time format in milliseconds: the remainder modulo
sixty seconds, scaled to milliseconds and rounded as the 3-decimal float
format does. -/
def fmtSecMilli (t : ℚ) : ℤ :=
  roundHalfEven ((t - 60 * fmtMinutes t) * 1000)

/-- Left-pad a natural number with zeros to the given width. -/
def padZeros (w : ℕ) (n : ℕ) : String :=
  let s := toString n
  if s.length < w then String.mk (List.replicate (w - s.length) '0') ++ s else s

/-- Formatted lap time minutes colon seconds, the source f-string with the
seconds field printed over width six with three decimals. -/
def lapTimeFormat (t : ℚ) : String :=
  let m := fmtMinutes t
  let ms := (fmtSecMilli t).toNat
  toString m ++ ":" ++ padZeros 2 (ms / 1000) ++ "." ++ padZeros 3 (ms % 1000)

/-- LapMetadata pydantic model of models.py, the LapSummary of the spec. -/
structure LapMetadata where
  lapNumber : ℤ
  driver : String
  lapTimeSeconds : Option ℚ
  lapTimeStr : Option String
  sector1Time : Option ℚ
  sector2Time : Option ℚ
  sector3Time : Option ℚ
  compound : Option String
  isPersonalBest : Bool
deriving DecidableEq, Repr

/-- One row of the laps table of a session as read by data_processor.py:
driver code, lap number, optional lap time and sector times in seconds
(none embeds a NaT entry), optional compound, personal-best flag, and the
telemetry table returned by get_telemetry, with none embedding a fetch that
raises or returns nothing. -/
structure Lap where
  driver : String
  lapNumber : ℤ
  lapTime : Option ℚ
  sector1Time : Option ℚ
  sector2Time : Option ℚ
  sector3Time : Option ℚ
  compound : Option String
  isPersonalBest : Bool
  telemetry : Option Frame
deriving DecidableEq, Repr

/-- Loaded session as seen by data_processor.py: the laps table. -/
structure Session where
  laps : List Lap
deriving DecidableEq, Repr

/-- Embedding of _extract_lap_metadata: every field is copied with its
optional conversion, and the formatted lap-time string exists exactly when a
duration-typed lap time does. -/
def extract_lap_metadata (lap : Lap) (driver : String) : LapMetadata :=
  { lapNumber := lap.lapNumber
    driver := driver
    lapTimeSeconds := lap.lapTime
    lapTimeStr := lap.lapTime.map lapTimeFormat
    sector1Time := lap.sector1Time
    sector2Time := lap.sector2Time
    sector3Time := lap.sector3Time
    compound := lap.compound
    isPersonalBest := lap.isPersonalBest }

/-- Embedding of extract_lap_telemetry.  The source wraps the telemetry fetch
and the dataframe conversion in one inner try whose handler returns the
metadata with a null telemetry, so both a failing fetch and a failing
conversion land in that branch; only failures outside that inner try would
reach the outer handler that re-raises, embedded by the Except result type. -/
def extract_lap_telemetry (s : Session) (driver : String) (lapNumber : ℤ) :
    Except Unit (Option LapMetadata × Option TelemetryData) :=
  let driverLaps := s.laps.filter (fun l => l.driver = driver)
  if driverLaps.isEmpty then Except.ok (none, none)
  else
    match (driverLaps.filter (fun l => l.lapNumber = lapNumber)).head? with
    | none => Except.ok (none, none)
    | some lap =>
      let meta := extract_lap_metadata lap driver
      match lap.telemetry with
      | none => Except.ok (some meta, none)
      | some df =>
        match process_telemetry_dataframe df with
        | none => Except.ok (some meta, none)
        | some td => Except.ok (some meta, some td)

/-- Python float truthiness of an optional seconds value: None and the float
zero are falsy, every other value is truthy. -/
def pyTruthy (o : Option ℚ) : Bool :=
  match o with
  | none => false
  | some q => decide (q ≠ 0)

/-- Embedding of compare_drivers_telemetry: runs the single-lap pipeline for
both drivers, then computes the scalar delta under the source condition, which
tests both metadata objects and both lap-time floats for Python truthiness. -/
def compare_drivers_telemetry (s : Session) (driver1 driver2 : String) (lapNumber : ℤ) :
    Except Unit (Option LapMetadata × Option TelemetryData ×
                 Option LapMetadata × Option TelemetryData × Option ℚ) := do
  let (m1, t1) ← extract_lap_telemetry s driver1 lapNumber
  let (m2, t2) ← extract_lap_telemetry s driver2 lapNumber
  let delta : Option ℚ :=
    match m1, m2 with
    | some a, some b =>
      if pyTruthy a.lapTimeSeconds && pyTruthy b.lapTimeSeconds then
        match a.lapTimeSeconds, b.lapTimeSeconds with
        | some x, some y => some (x - y)
        | _, _ => none
      else none
    | _, _ => none
  pure (m1, t1, m2, t2, delta)

/-- First lap carrying the minimal present lap time, the pandas idxmin over
the LapTime column: missing times are skipped and ties keep the first
occurrence; an all-missing column makes idxmin raise, embedded as none. -/
def idxmin_laptime : List Lap → Option Lap
  | [] => none
  | l :: ls =>
    match idxmin_laptime ls with
    | none => if l.lapTime.isSome then some l else none
    | some b =>
      match l.lapTime, b.lapTime with
      | some t, some tb => if t ≤ tb then some l else some b
      | some _, none => some l
      | none, _ => some b

/-- Embedding of get_fastest_lap: empty driver lap list yields none, the
idxmin failure on an all-missing LapTime column is caught by the handler that
returns none, and otherwise the lap number of the first minimal lap is
returned. -/
def get_fastest_lap (s : Session) (driver : String) : Option ℤ :=
  let driverLaps := s.laps.filter (fun l => l.driver = driver)
  if driverLaps.isEmpty then none
  else
    match idxmin_laptime driverLaps with
    | none => none
    | some lap => some lap.lapNumber

/-- Concrete frame for the C3 witness: two samples, a Speed channel with one
missing value, a DRS channel, and no RPM channel. -/
def c3frame : Frame :=
  { index := [5, 6],
    cols := [("Speed", [Cell.num 100, Cell.nan]), ("DRS", [Cell.num (79 / 10), Cell.nan])] }

/-- Concrete output of the pipeline on the C3 witness frame. -/
def c3td : TelemetryData :=
  { time := [0, 1], distance := [], speed := [100, 0], throttle := [], brake := [],
    gear := [], rpm := none, drs := some [7, 0] }

/-- Concrete frame for the C5 witness: two samples with session-relative
timestamps five and seven seconds. -/
def c5frame : Frame := { index := [5, 7], cols := [] }

/-- Concrete output of the pipeline on the C5 witness frame. -/
def c5td : TelemetryData :=
  { time := [0, 2], distance := [], speed := [], throttle := [], brake := [],
    gear := [], rpm := none, drs := none }

/-- Concrete frame for C2: one sample whose Speed cell is malformed, so the
conversion of the table fails while the table itself exists. -/
def c2frame : Frame := { index := [0], cols := [("Speed", [Cell.bad])] }

/-- Concrete lap for C2: matched lap with the malformed telemetry table. -/
def c2lap : Lap :=
  { driver := "VER", lapNumber := 1, lapTime := some 80, sector1Time := none,
    sector2Time := none, sector3Time := none, compound := none,
    isPersonalBest := false, telemetry := some c2frame }

/-- Concrete session for C2. -/
def c2session : Session := { laps := [c2lap] }

/-- Concrete lap for the C4 counterexample: a present lap time of exactly
zero seconds, the Python-falsy float. -/
def c4lapA : Lap :=
  { driver := "AAA", lapNumber := 1, lapTime := some 0, sector1Time := none,
    sector2Time := none, sector3Time := none, compound := none,
    isPersonalBest := false, telemetry := none }

/-- Concrete lap for the C4 counterexample: a present nonzero lap time. -/
def c4lapB : Lap :=
  { driver := "BBB", lapNumber := 1, lapTime := some 82, sector1Time := none,
    sector2Time := none, sector3Time := none, compound := none,
    isPersonalBest := false, telemetry := none }

/-- Concrete session for the C4 counterexample. -/
def c4session : Session := { laps := [c4lapA, c4lapB] }

/-- Lap time of eighty-two and a half seconds, written as an explicit reduced
fraction so that kernel reduction never has to normalize it. -/
def q165over2 : ℚ := ⟨165, 2, by norm_num, by norm_num⟩

/-- Concrete lap for the C4 witness: lap time eighty seconds. -/
def c4wlapV : Lap :=
  { driver := "VER", lapNumber := 1, lapTime := some 80, sector1Time := none,
    sector2Time := none, sector3Time := none, compound := none,
    isPersonalBest := false, telemetry := none }

/-- Concrete lap for the C4 witness: lap time eighty-two and a half seconds. -/
def c4wlapL : Lap :=
  { driver := "LEC", lapNumber := 1, lapTime := some q165over2, sector1Time := none,
    sector2Time := none, sector3Time := none, compound := none,
    isPersonalBest := false, telemetry := none }

/-- Concrete session for the C4 witness. -/
def c4wsession : Session := { laps := [c4wlapV, c4wlapL] }

/-- Pointwise contract of the zero-fill float coercion: a missing cell comes
out as zero and a numeric cell comes out unchanged. -/
def floatCellRel (c : Cell) (v : ℚ) : Prop :=
  (c = Cell.nan → v = 0) ∧ ∀ q, c = Cell.num q → v = q

/-- Pointwise contract of the zero-fill integer coercion: a missing cell
comes out as zero and a numeric cell is truncated toward zero. -/
def intCellRel (c : Cell) (v : ℤ) : Prop :=
  (c = Cell.nan → v = 0) ∧ ∀ q, c = Cell.num q → v = truncInt q

/-- Concrete frame for the C8 witness: a nGear channel holding 7.9 and one
missing value, and no RPM channel. -/
def c8frame : Frame :=
  { index := [0, 0], cols := [("nGear", [Cell.num (79 / 10), Cell.nan])] }

/-- Concrete lap for the C10 witness: first lap, eighty-one seconds. -/
def c10lap1 : Lap :=
  { driver := "VER", lapNumber := 1, lapTime := some 81, sector1Time := none,
    sector2Time := none, sector3Time := none, compound := none,
    isPersonalBest := false, telemetry := none }

/-- Concrete lap for the C10 witness: second lap, eighty seconds, fastest. -/
def c10lap2 : Lap :=
  { driver := "VER", lapNumber := 2, lapTime := some 80, sector1Time := none,
    sector2Time := none, sector3Time := none, compound := none,
    isPersonalBest := false, telemetry := none }

/-- Concrete lap for the C10 witness: another driver with a missing time. -/
def c10lap3 : Lap :=
  { driver := "HAM", lapNumber := 3, lapTime := none, sector1Time := none,
    sector2Time := none, sector3Time := none, compound := none,
    isPersonalBest := false, telemetry := none }

/-- Concrete session for the C10 witness. -/
def c10session : Session := { laps := [c10lap1, c10lap2, c10lap3] }

end DataProc

namespace SpeedExt

/-- Telemetry table of one lap as read by speed_extractor.py after the
external add_distance call of the provider: the row count used by the empty
test and the four channels the source extracts.  The cumulative distance
derivation itself belongs to the external fastf1 collaborator and is not part
of this repository. -/
structure STelemetry where
  nrows : ℕ
  distance : List ℚ
  speed : List ℚ
  throttle : List ℚ
  brake : List ℚ
deriving DecidableEq, Repr

/-- Every channel of the table has one value per row, as pandas guarantees
for the columns of one DataFrame. -/
def STelemetry.wfb (t : STelemetry) : Bool :=
  t.distance.length == t.nrows && t.speed.length == t.nrows &&
  t.throttle.length == t.nrows && t.brake.length == t.nrows

/-- One row of the laps table as read by speed_extractor.py, with the
telemetry fetch result: none embeds a get_telemetry call that raises or
returns nothing. -/
structure SLap where
  driver : String
  lapNumber : ℤ
  lapTime : Option ℚ
  telemetry : Option STelemetry
deriving DecidableEq, Repr

/-- Lap rows are well formed when their telemetry tables, if any, are. -/
def SLap.wfb (l : SLap) : Bool :=
  match l.telemetry with
  | none => true
  | some t => t.wfb

/-- Circuit geometry returned by the external get_circuit_info: corner
numbers with distances, and the track rotation; passed through verbatim. -/
structure CircuitInfo where
  corners : List (ℤ × ℚ)
  rotation : ℚ
deriving DecidableEq, Repr

/-- Loaded session as seen by speed_extractor.py: the laps table, the circuit
info of the external provider (none when that call fails), and the event
fields copied into the response.  Team names and display colors are
presentation-only fields of the response, not modeled here: the color
fallback hashes the driver code with the process-seeded Python hash. -/
structure SSession where
  laps : List SLap
  circuit : Option CircuitInfo
  year : ℤ
  eventName : String
  name : String
deriving DecidableEq, Repr

/-- Session is well formed when all its lap rows are. -/
def SSession.wfb (s : SSession) : Bool :=
  s.laps.all SLap.wfb

/-- One extracted driver trace of the aligner result, without the
presentation-only team and color fields. -/
structure Trace where
  driver : String
  lapNumber : ℤ
  lapTime : Option ℚ
  distance : List ℚ
  speed : List ℚ
  throttle : List ℚ
  brake : List ℚ
deriving DecidableEq, Repr

/-- Delta curve of the aligner result: common distance grid, per-point speed
difference of driver one minus driver two, and the two driver codes. -/
structure DeltaData where
  distance : List ℚ
  delta : List ℚ
  driver1 : String
  driver2 : String
deriving DecidableEq, Repr

/-- Full aligner result.  A key the source dictionary lacks or sets to the
Python None is embedded as none. -/
structure AlignerResult where
  traces : List Trace
  maxDistance : ℚ
  delta : Option DeltaData
  error : Option String
  circuitInfo : Option CircuitInfo
  sessionInfo : Option (ℤ × String × String)
deriving DecidableEq, Repr

/-- Embedding of numpy.linspace a b n: n points from a to b inclusive with
equal spacing of the difference over n minus one. -/
def npLinspace (a b : ℚ) (n : ℕ) : List ℚ :=
  (List.range n).map (fun i : ℕ => a + (b - a) * (i : ℚ) / ((n : ℚ) - 1))

/-- Piecewise-linear evaluation against the remaining sample pairs, after the
segment left end x0 with value y0 has been fixed: past the last sample the
last value is held, the clamping edge behavior of numpy.interp. -/
def interpGo (x : ℚ) : ℚ → ℚ → List (ℚ × ℚ) → ℚ
  | _, y0, [] => y0
  | x0, y0, (x1, y1) :: rest =>
    if x ≤ x1 then y0 + (y1 - y0) * (x - x0) / (x1 - x0)
    else interpGo x x1 y1 rest

/-- Embedding of numpy.interp at one query point: sample arrays of unequal
length or an empty sample array make the call raise, embedded as none;
queries left of the first sample clamp to its value. -/
def npInterp (x : ℚ) (xp fp : List ℚ) : Option ℚ :=
  if xp.length = fp.length then
    match xp, fp with
    | x0 :: xs, y0 :: ys =>
      some (if x ≤ x0 then y0 else interpGo x x0 y0 (xs.zip ys))
    | _, _ => none
  else none

/-- Vectorized numpy.interp over a list of query points: one raising call
aborts the whole evaluation. -/
def interpList (xs : List ℚ) (xp fp : List ℚ) : Option (List ℚ) :=
  match xs with
  | [] => some []
  | x :: rest =>
    match npInterp x xp fp, interpList rest xp fp with
    | some y, some ys => some (y :: ys)
    | _, _ => none

/-- Embedding of _calculate_delta: a fixed grid of 200 linspace points from
zero to the maximal distance, both speed traces resampled onto it, and the
pointwise difference of driver one minus driver two; any interpolation
failure is caught by the handler that returns the Python None, embedded as
none. -/
def calculate_delta (t1 t2 : Trace) (maxDistance : ℚ) : Option DeltaData :=
  let grid := npLinspace 0 maxDistance 200
  match interpList grid t1.distance t1.speed, interpList grid t2.distance t2.speed with
  | some s1, some s2 =>
    some { distance := grid, delta := List.zipWith (fun a b => a - b) s1 s2,
           driver1 := t1.driver, driver2 := t2.driver }
  | _, _ => none

/-- First lap carrying the minimal present lap time among the given laps,
the pandas idxmin over the LapTime column of the valid laps. -/
def idxmin_laptime : List SLap → Option SLap
  | [] => none
  | l :: ls =>
    match idxmin_laptime ls with
    | none => if l.lapTime.isSome then some l else none
    | some b =>
      match l.lapTime, b.lapTime with
      | some t, some tb => if t ≤ tb then some l else some b
      | some _, none => some l
      | none, _ => some b

/-- Lap selection policy of the extraction loop: an explicit lap number takes
precedence and selects the exact match, the fastest mode restricts to laps
with a present time and takes the idxmin, and anything else falls back to the
first lap of the driver. -/
def selectLap (driverLaps : List SLap) (lapNumber : Option ℤ)
    (lapType : String) : Option SLap :=
  match lapNumber with
  | some n => (driverLaps.filter (fun l => l.lapNumber = n)).head?
  | none =>
    if lapType = "fastest" then
      let validLaps := driverLaps.filter (fun l => l.lapTime.isSome)
      if validLaps.isEmpty then none
      else idxmin_laptime validLaps
    else driverLaps.head?

/-- Per-driver body of the extraction loop of extract_speed_traces: select a
lap under the explicit-number, fastest, or first-lap policy, fetch its
telemetry, and build the trace when the table is present and non-empty; every
failure branch of the source loop iteration ends in continue, embedded as
none. -/
def processDriver (s : SSession) (lapNumber : Option ℤ) (lapType : String)
    (driver : String) : Option Trace :=
  let driverLaps := s.laps.filter (fun l => l.driver = driver)
  if driverLaps.isEmpty then none
  else
    match selectLap driverLaps lapNumber lapType with
    | none => none
    | some lap =>
      match lap.telemetry with
      | none => none
      | some tel =>
        if tel.nrows = 0 then none
        else
          some { driver := driver, lapNumber := lap.lapNumber,
                 lapTime := lap.lapTime, distance := tel.distance,
                 speed := tel.speed, throttle := tel.throttle,
                 brake := tel.brake }

/-- Running maximum of the final distance samples of the traces, the
max_distance accumulator of the source loop, updated only when a trace has a
non-empty distance channel and starting from zero. -/
def maxDistanceOf (traces : List Trace) : ℚ :=
  traces.foldl
    (fun m tr =>
      match tr.distance.getLast? with
      | some d => max m d
      | none => m) 0

/-- Embedding of extract_speed_traces: collect the per-driver traces with
failure isolation, return the explicit empty result when no driver yielded a
trace, compute the delta exactly when the trace list has two entries, and
pass the circuit and session metadata through. -/
def extract_speed_traces (s : SSession) (drivers : List String)
    (lapNumber : Option ℤ) (lapType : String) : AlignerResult :=
  let traces := drivers.filterMap (processDriver s lapNumber lapType)
  if traces.isEmpty then
    { traces := [], maxDistance := 0, delta := none,
      error := some "No telemetry data available for selected drivers",
      circuitInfo := none, sessionInfo := none }
  else
    let maxDistance := maxDistanceOf traces
    { traces := traces, maxDistance := maxDistance,
      delta :=
        match traces with
        | [t1, t2] => calculate_delta t1 t2 maxDistance
        | _ => none,
      error := none, circuitInfo := s.circuit,
      sessionInfo := some (s.year, s.eventName, s.name) }

/-- Trace for the C6 witness: a single sample at distance zero, speed five. -/
def c6t1 : Trace :=
  { driver := "A", lapNumber := 1, lapTime := none, distance := [0], speed := [5],
    throttle := [], brake := [] }

/-- Trace for the C6 witness: a single sample at distance zero, speed three. -/
def c6t2 : Trace :=
  { driver := "B", lapNumber := 1, lapTime := none, distance := [0], speed := [3],
    throttle := [], brake := [] }

/-- Concrete delta curve produced on the C6 witness traces. -/
def c6d : DeltaData :=
  { distance := npLinspace 0 199 200,
    delta := List.zipWith (fun p q => p - q)
      ((npLinspace 0 199 200).map fun _ => (5 : ℚ))
      ((npLinspace 0 199 200).map fun _ => (3 : ℚ)),
    driver1 := "A", driver2 := "B" }

/-- Trace for the C9 witness with an empty distance sequence. -/
def c9empty : Trace :=
  { driver := "E", lapNumber := 1, lapTime := none, distance := [], speed := [],
    throttle := [], brake := [] }

/-- Trace for the C9 witness: one sample, speed four. -/
def c9t1 : Trace :=
  { driver := "A", lapNumber := 1, lapTime := none, distance := [0], speed := [4],
    throttle := [], brake := [] }

/-- Trace for the C9 witness: one sample, speed one. -/
def c9t2 : Trace :=
  { driver := "B", lapNumber := 1, lapTime := none, distance := [0], speed := [1],
    throttle := [], brake := [] }

/-- Concrete delta curve produced on the successful C9 witness traces. -/
def c9d : DeltaData :=
  { distance := npLinspace 0 3 200,
    delta := List.zipWith (fun p q => p - q)
      ((npLinspace 0 3 200).map fun _ => (4 : ℚ))
      ((npLinspace 0 3 200).map fun _ => (1 : ℚ)),
    driver1 := "A", driver2 := "B" }

/-- Telemetry table of the first C1 driver: one sample. -/
def c1telA : STelemetry :=
  { nrows := 1, distance := [0], speed := [100], throttle := [1], brake := [0] }

/-- Telemetry table of the second C1 driver: one sample. -/
def c1telB : STelemetry :=
  { nrows := 1, distance := [0], speed := [90], throttle := [1], brake := [0] }

/-- Lap of the first C1 driver, with telemetry. -/
def c1lapA : SLap :=
  { driver := "AAA", lapNumber := 1, lapTime := some 80, telemetry := some c1telA }

/-- Lap of the second C1 driver, with telemetry. -/
def c1lapB : SLap :=
  { driver := "BBB", lapNumber := 1, lapTime := some 81, telemetry := some c1telB }

/-- Lap of the third C1 driver, whose telemetry fetch yields nothing. -/
def c1lapC : SLap :=
  { driver := "CCC", lapNumber := 1, lapTime := some 82, telemetry := none }

/-- Session for C1 with three drivers of which one yields no telemetry. -/
def c1session : SSession :=
  { laps := [c1lapA, c1lapB, c1lapC], circuit := none, year := 2024,
    eventName := "GP", name := "Q" }

/-- Trace produced for the first C1 driver. -/
def c1trA : Trace :=
  { driver := "AAA", lapNumber := 1, lapTime := some 80, distance := [0],
    speed := [100], throttle := [1], brake := [0] }

/-- Trace produced for the second C1 driver. -/
def c1trB : Trace :=
  { driver := "BBB", lapNumber := 1, lapTime := some 81, distance := [0],
    speed := [90], throttle := [1], brake := [0] }

end SpeedExt

namespace DataProc

theorem cellsToFloats_length :
    ∀ (cs : List Cell) (l : List ℚ), cellsToFloats cs = some l → l.length = cs.length := by
  intro cs
  induction cs with
  | nil =>
    intro l h
    simp only [cellsToFloats, Option.some.injEq] at h
    simp [← h]
  | cons c cs ih =>
    intro l h
    simp only [cellsToFloats] at h
    cases hc : cellFloat c with
    | none => rw [hc] at h; exact absurd h (by simp)
    | some q =>
      rw [hc] at h
      cases hcs : cellsToFloats cs with
      | none => rw [hcs] at h; exact absurd h (by simp)
      | some qs =>
        rw [hcs] at h
        simp only [Option.some.injEq] at h
        rw [← h]
        simp [ih qs hcs]

theorem cellsToInts_length :
    ∀ (cs : List Cell) (l : List ℤ), cellsToInts cs = some l → l.length = cs.length := by
  intro cs
  induction cs with
  | nil =>
    intro l h
    simp only [cellsToInts, Option.some.injEq] at h
    simp [← h]
  | cons c cs ih =>
    intro l h
    simp only [cellsToInts] at h
    cases hc : cellInt c with
    | none => rw [hc] at h; exact absurd h (by simp)
    | some z =>
      rw [hc] at h
      cases hcs : cellsToInts cs with
      | none => rw [hcs] at h; exact absurd h (by simp)
      | some zs =>
        rw [hcs] at h
        simp only [Option.some.injEq] at h
        rw [← h]
        simp [ih zs hcs]

theorem cellsToRats_length :
    ∀ (cs : List Cell) (l : List ℚ), cellsToRats cs = some l → l.length = cs.length := by
  intro cs
  induction cs with
  | nil =>
    intro l h
    simp only [cellsToRats, Option.some.injEq] at h
    simp [← h]
  | cons c cs ih =>
    intro l h
    cases c with
    | num q =>
      simp only [cellsToRats] at h
      cases hcs : cellsToRats cs with
      | none => rw [hcs] at h; exact absurd h (by simp)
      | some qs =>
        rw [hcs] at h
        simp only [Option.some.injEq] at h
        rw [← h]
        simp [ih qs hcs]
    | nan => exact absurd h (by simp [cellsToRats])
    | bad => exact absurd h (by simp [cellsToRats])

theorem lookupCol_mem :
    ∀ (cols : List (String × List Cell)) (name : String) (v : List Cell),
      lookupCol name cols = some v → (name, v) ∈ cols := by
  intro cols
  induction cols with
  | nil => intro name v h; exact absurd h (by simp [lookupCol])
  | cons p rest ih =>
    intro name v h
    obtain ⟨k, w⟩ := p
    simp only [lookupCol] at h
    by_cases hk : k = name
    · rw [if_pos hk] at h
      simp only [Option.some.injEq] at h
      subst hk; subst h
      exact List.mem_cons_self _ _
    · rw [if_neg hk] at h
      exact List.mem_cons_of_mem _ (ih name v h)

theorem wfb_col_length (df : Frame) (name : String) (cells : List Cell)
    (hwf : df.wfb = true) (hlk : lookupCol name df.cols = some cells) :
    cells.length = df.nrows := by
  have hmem := lookupCol_mem df.cols name cells hlk
  have := (List.all_eq_true.mp hwf) _ hmem
  simpa [Frame.nrows] using this

theorem safeToListFloat_length (df : Frame) (name : String) (cells : List Cell)
    (l : List ℚ) (hlk : lookupCol name df.cols = some cells)
    (h : safeToListFloat df name = some l) : l.length = cells.length := by
  unfold safeToListFloat at h
  rw [hlk] at h
  have := cellsToFloats_length _ _ h
  simpa using this

theorem safeToListInt_length (df : Frame) (name : String) (cells : List Cell)
    (l : List ℤ) (hlk : lookupCol name df.cols = some cells)
    (h : safeToListInt df name = some l) : l.length = cells.length := by
  unfold safeToListInt at h
  rw [hlk] at h
  have := cellsToInts_length _ _ h
  simpa using this

theorem rebase_length (l : List ℚ) : (rebase l).length = l.length := by
  cases l <;> simp [rebase]

theorem process_eq_some (df : Frame) (td : TelemetryData)
    (h : process_telemetry_dataframe df = some td) :
    ∃ timeRaw distance speed throttle brake gear rpm drs,
      getTimeList df = some timeRaw ∧
      safeToListFloat df "Distance" = some distance ∧
      safeToListFloat df "Speed" = some speed ∧
      safeToListFloat df "Throttle" = some throttle ∧
      safeToListFloat df "Brake" = some brake ∧
      safeToListInt df "nGear" = some gear ∧
      (if hasCol df "RPM" then (safeToListFloat df "RPM").map some else some none) = some rpm ∧
      (if hasCol df "DRS" then (safeToListInt df "DRS").map some else some none) = some drs ∧
      td = { time := rebase timeRaw, distance := distance, speed := speed,
             throttle := throttle, brake := brake, gear := gear,
             rpm := rpm, drs := drs } := by
  unfold process_telemetry_dataframe at h
  simp only [Option.bind_eq_some, Option.some.injEq] at h
  obtain ⟨timeRaw, h1, distance, h2, speed, h3, throttle, h4, brake, h5,
    gear, h6, rpm, h7, drs, h8, h9⟩ := h
  exact ⟨timeRaw, distance, speed, throttle, brake, gear, rpm, drs,
    h1, h2, h3, h4, h5, h6, h7, h8, h9.symm⟩

theorem getTimeList_nonzero (df : Frame) (raw : List ℚ)
    (h : getTimeList df = some raw) : df.index.length ≠ 0 := by
  unfold getTimeList at h
  by_cases h0 : df.index.length = 0
  · rw [if_pos h0] at h; exact absurd h (by simp)
  · exact h0

theorem getTimeList_length (df : Frame) (raw : List ℚ)
    (hwf : df.wfb = true) (h : getTimeList df = some raw) :
    raw.length = df.nrows := by
  have h0 := getTimeList_nonzero df raw h
  unfold getTimeList at h
  rw [if_neg h0] at h
  cases hlk : lookupCol "Time" df.cols with
  | none =>
    rw [hlk] at h
    simp only [Option.some.injEq] at h
    rw [← h]; rfl
  | some cells =>
    rw [hlk] at h
    rw [cellsToRats_length _ _ h]
    exact wfb_col_length df "Time" cells hwf hlk

/-- C3: for every NormalizedTelemetry value built by the pipeline from a
well-formed raw telemetry table of n samples, the time sequence and every
channel present in the raw table yield output sequences of length exactly n,
and each optional channel (RPM, DRS) absent from the raw table is represented
by the explicit none marker, never by a zero-filled sequence. -/
theorem c3_normalized_telemetry_invariant (df : Frame) (td : TelemetryData)
    (hwf : df.wfb = true) (h : process_telemetry_dataframe df = some td) :
    td.time.length = df.nrows ∧
    (hasCol df "Distance" = true → td.distance.length = df.nrows) ∧
    (hasCol df "Speed" = true → td.speed.length = df.nrows) ∧
    (hasCol df "Throttle" = true → td.throttle.length = df.nrows) ∧
    (hasCol df "Brake" = true → td.brake.length = df.nrows) ∧
    (hasCol df "nGear" = true → td.gear.length = df.nrows) ∧
    (hasCol df "RPM" = true → td.rpm.map List.length = some df.nrows) ∧
    (hasCol df "RPM" = false → td.rpm = none) ∧
    (hasCol df "DRS" = true → td.drs.map List.length = some df.nrows) ∧
    (hasCol df "DRS" = false → td.drs = none) := by
  obtain ⟨timeRaw, distance, speed, throttle, brake, gear, rpm, drs,
    h1, h2, h3, h4, h5, h6, h7, h8, h9⟩ := process_eq_some df td h
  subst h9
  refine ⟨?_, ?_, ?_, ?_, ?_, ?_, ?_, ?_, ?_, ?_⟩
  · simpa [rebase_length] using getTimeList_length df timeRaw hwf h1
  · intro hc
    obtain ⟨cells, hlk⟩ := Option.isSome_iff_exists.mp hc
    simp only [safeToListFloat_length df _ cells _ hlk h2]
    exact wfb_col_length df _ cells hwf hlk
  · intro hc
    obtain ⟨cells, hlk⟩ := Option.isSome_iff_exists.mp hc
    simp only [safeToListFloat_length df _ cells _ hlk h3]
    exact wfb_col_length df _ cells hwf hlk
  · intro hc
    obtain ⟨cells, hlk⟩ := Option.isSome_iff_exists.mp hc
    simp only [safeToListFloat_length df _ cells _ hlk h4]
    exact wfb_col_length df _ cells hwf hlk
  · intro hc
    obtain ⟨cells, hlk⟩ := Option.isSome_iff_exists.mp hc
    simp only [safeToListFloat_length df _ cells _ hlk h5]
    exact wfb_col_length df _ cells hwf hlk
  · intro hc
    obtain ⟨cells, hlk⟩ := Option.isSome_iff_exists.mp hc
    simp only [safeToListInt_length df _ cells _ hlk h6]
    exact wfb_col_length df _ cells hwf hlk
  · intro hc
    rw [if_pos hc] at h7
    obtain ⟨l, hl, hrpm⟩ := Option.map_eq_some'.mp h7
    obtain ⟨cells, hlk⟩ := Option.isSome_iff_exists.mp hc
    subst hrpm
    simp only [Option.map_some', Option.some.injEq]
    rw [safeToListFloat_length df _ cells l hlk hl]
    exact wfb_col_length df _ cells hwf hlk
  · intro hc
    rw [if_neg (by simp [hc])] at h7
    simpa using h7.symm
  · intro hc
    rw [if_pos hc] at h8
    obtain ⟨l, hl, hdrs⟩ := Option.map_eq_some'.mp h8
    obtain ⟨cells, hlk⟩ := Option.isSome_iff_exists.mp hc
    subst hdrs
    simp only [Option.map_some', Option.some.injEq]
    rw [safeToListInt_length df _ cells l hlk hl]
    exact wfb_col_length df _ cells hwf hlk
  · intro hc
    rw [if_neg (by simp [hc])] at h8
    simpa using h8.symm

/-- Witness for C3 at a concrete frame: the well-formedness and success
hypotheses hold, the Speed and DRS sequences have the sample count two, and
the absent RPM channel is the none marker. -/
theorem c3_witness :
    c3frame.wfb = true ∧ process_telemetry_dataframe c3frame = some c3td ∧
    c3td.speed.length = c3frame.nrows ∧ c3td.drs.map List.length = some c3frame.nrows ∧
    c3td.rpm = none := by
  have hwf : c3frame.wfb = true := by decide
  have ht : truncInt (79 / 10) = 7 := by
    unfold truncInt
    rw [if_pos (by norm_num)]
    exact Int.floor_eq_iff.mpr (by norm_num)
  have h0 : truncInt 0 = 0 := by
    unfold truncInt
    rw [if_pos le_rfl]
    exact Int.floor_zero
  have h : process_telemetry_dataframe c3frame = some c3td := by
    have lkT : lookupCol "Time" c3frame.cols = none := rfl
    have lkD : lookupCol "Distance" c3frame.cols = none := rfl
    have lkS : lookupCol "Speed" c3frame.cols = some [Cell.num 100, Cell.nan] := rfl
    have lkTh : lookupCol "Throttle" c3frame.cols = none := rfl
    have lkB : lookupCol "Brake" c3frame.cols = none := rfl
    have lkG : lookupCol "nGear" c3frame.cols = none := rfl
    have lkR : lookupCol "RPM" c3frame.cols = none := rfl
    have lkX : lookupCol "DRS" c3frame.cols = some [Cell.num (79 / 10), Cell.nan] := rfl
    have hidx : c3frame.index = [5, 6] := rfl
    norm_num [process_telemetry_dataframe, getTimeList, safeToListFloat,
      safeToListInt, cellsToFloats, cellsToInts, cellsToRats, cellFloat, cellInt,
      fillna, hasCol, rebase, c3td, ht, h0, Option.bind,
      lkT, lkD, lkS, lkTh, lkB, lkG, lkR, lkX, hidx]
  obtain ⟨_, _, hs, _, _, _, _, hrpmn, hdrs, _⟩ :=
    c3_normalized_telemetry_invariant c3frame c3td hwf h
  exact ⟨hwf, h, hs (by decide), hdrs (by decide), hrpmn (by decide)⟩

/-- C5: for every non-empty telemetry table the pipeline accepts, the time
sequence of the produced NormalizedTelemetry equals the raw timestamps in
seconds with the first raw timestamp subtracted from every element, and its
first element is exactly zero. -/
theorem c5_time_rebase (df : Frame) (td : TelemetryData) (raw : List ℚ)
    (h : process_telemetry_dataframe df = some td)
    (hraw : getTimeList df = some raw) :
    td.time = raw.map (fun t => t - raw.headI) ∧ td.time.headI = 0 := by
  obtain ⟨timeRaw, distance, speed, throttle, brake, gear, rpm, drs,
    h1, _, _, _, _, _, _, _, h9⟩ := process_eq_some df td h
  rw [hraw] at h1
  have hrw : timeRaw = raw := by
    simpa using h1.symm
  subst hrw
  subst h9
  cases timeRaw with
  | nil =>
    refine ⟨by simp [rebase], ?_⟩
    show List.headI (rebase []) = 0
    rfl
  | cons t0 rest =>
    constructor
    · simp [rebase, List.headI]
    · simp [rebase, List.headI]

/-- Witness for C5 at a concrete frame: the pipeline succeeds, the raw time
list is the index, and the conclusions of the re-basing theorem hold. -/
theorem c5_witness :
    process_telemetry_dataframe c5frame = some c5td ∧
    getTimeList c5frame = some [5, 7] ∧
    c5td.time = ([5, 7] : List ℚ).map (fun t => t - ([5, 7] : List ℚ).headI) ∧
    c5td.time.headI = 0 := by
  have hraw : getTimeList c5frame = some [5, 7] := rfl
  have h : process_telemetry_dataframe c5frame = some c5td := by
    norm_num [process_telemetry_dataframe, getTimeList, safeToListFloat,
      safeToListInt, cellsToFloats, cellsToInts, cellFloat, cellInt, fillna,
      hasCol, lookupCol, rebase, c5frame, c5td, Option.bind]
  obtain ⟨ha, hb⟩ := c5_time_rebase c5frame c5td [5, 7] h hraw
  exact ⟨h, hraw, ha, hb⟩

/-- C2 as amended: when the matched lap has a telemetry table and converting
that table fails, the single-lap pipeline returns the metadata paired with
the null telemetry, exactly as for a failing fetch; the failure is caught by
the inner handler and never propagates to the caller. -/
theorem c2_conversion_failure_swallowed (s : Session) (driver : String)
    (lapNumber : ℤ) (lap : Lap) (df : Frame)
    (hsel : ((s.laps.filter (fun l => l.driver = driver)).filter
      (fun l => l.lapNumber = lapNumber)).head? = some lap)
    (htel : lap.telemetry = some df)
    (hfail : process_telemetry_dataframe df = none) :
    extract_lap_telemetry s driver lapNumber =
      Except.ok (some (extract_lap_metadata lap driver), none) := by
  have hne : (s.laps.filter (fun l => l.driver = driver)).isEmpty = false := by
    cases hd : s.laps.filter (fun l => l.driver = driver) with
    | nil => rw [hd] at hsel; simp at hsel
    | cons a as => rfl
  simp only [extract_lap_telemetry, hne, Bool.false_eq_true, if_false, hsel,
    htel, hfail]

/-- Counterexample to C2 as stated: the telemetry table of the matched lap
exists but its conversion fails, yet the call returns the ordinary pair of
metadata and null telemetry instead of propagating a fatal error, so the
failure is silently converted into the empty-telemetry result reserved for
fetch failures. -/
theorem c2_counterexample :
    process_telemetry_dataframe c2frame = none ∧
    c2lap.telemetry = some c2frame ∧
    extract_lap_telemetry c2session "VER" 1 =
      Except.ok (some (extract_lap_metadata c2lap "VER"), none) :=
  ⟨rfl, rfl, rfl⟩

/-- Witness for the amended C2 at the concrete session: all hypotheses hold
and the call returns the metadata with the null telemetry. -/
theorem c2_witness :
    ((c2session.laps.filter (fun l => l.driver = "VER")).filter
      (fun l => l.lapNumber = 1)).head? = some c2lap ∧
    extract_lap_telemetry c2session "VER" 1 =
      Except.ok (some (extract_lap_metadata c2lap "VER"), none) := by
  have h1 : ((c2session.laps.filter (fun l => l.driver = "VER")).filter
      (fun l => l.lapNumber = 1)).head? = some c2lap := rfl
  exact ⟨h1, c2_conversion_failure_swallowed c2session "VER" 1 c2lap c2frame h1 rfl rfl⟩

theorem extract_lap_telemetry_isOk (s : Session) (d : String) (n : ℤ) :
    ∃ p, extract_lap_telemetry s d n = Except.ok p := by
  simp only [extract_lap_telemetry]
  repeat' split
  all_goals exact ⟨_, rfl⟩

/-- C4 as amended: the scalar delta equals the lap time of driver A minus the
lap time of driver B and is computed exactly when both lap metadata are
present with present and nonzero lap times; a present lap time equal to zero
is Python-falsy and suppresses the delta. -/
theorem c4_delta_truthiness (s : Session) (d1 d2 : String) (n : ℤ)
    (m1 : Option LapMetadata) (t1 : Option TelemetryData)
    (m2 : Option LapMetadata) (t2 : Option TelemetryData) (dt : Option ℚ)
    (h : compare_drivers_telemetry s d1 d2 n = Except.ok (m1, t1, m2, t2, dt)) :
    (∀ a b x y, m1 = some a → m2 = some b → a.lapTimeSeconds = some x →
      b.lapTimeSeconds = some y → x ≠ 0 → y ≠ 0 → dt = some (x - y)) ∧
    (dt ≠ none → ∃ a b x y, m1 = some a ∧ m2 = some b ∧
      a.lapTimeSeconds = some x ∧ b.lapTimeSeconds = some y ∧
      x ≠ 0 ∧ y ≠ 0 ∧ dt = some (x - y)) := by
  obtain ⟨⟨m1', t1'⟩, h1⟩ := extract_lap_telemetry_isOk s d1 n
  obtain ⟨⟨m2', t2'⟩, h2⟩ := extract_lap_telemetry_isOk s d2 n
  unfold compare_drivers_telemetry at h
  rw [h1, h2] at h
  simp only [bind, Except.bind, pure, Except.pure, Except.ok.injEq, Prod.mk.injEq] at h
  obtain ⟨hm1, ht1, hm2, ht2, hdt⟩ := h
  subst hm1; subst ht1; subst hm2; subst ht2
  constructor
  · intro a b x y ha hb hx hy hx0 hy0
    subst ha; subst hb
    rw [← hdt]
    simp [pyTruthy, hx, hy, hx0, hy0]
  · intro hne
    rcases m1' with _ | a
    · rw [← hdt] at hne; simp at hne
    rcases m2' with _ | b
    · rw [← hdt] at hne; simp at hne
    rcases hx : a.lapTimeSeconds with _ | x
    · rw [← hdt] at hne; simp [pyTruthy, hx] at hne
    rcases hy : b.lapTimeSeconds with _ | y
    · rw [← hdt] at hne; simp [pyTruthy, hx, hy] at hne
    by_cases hx0 : x = 0
    · rw [← hdt] at hne; simp [pyTruthy, hx, hy, hx0] at hne
    by_cases hy0 : y = 0
    · rw [← hdt] at hne; simp [pyTruthy, hx, hy, hy0] at hne
    refine ⟨a, b, x, y, rfl, rfl, hx, hy, hx0, hy0, ?_⟩
    rw [← hdt]
    simp [pyTruthy, hx, hy, hx0, hy0]

/-- Counterexample to C4 as stated: both lap times are present (zero and
eighty-two seconds), yet the comparator returns a null delta instead of the
difference minus eighty-two, because the zero lap time is Python-falsy. -/
theorem c4_counterexample :
    (extract_lap_metadata c4lapA "AAA").lapTimeSeconds = some 0 ∧
    (extract_lap_metadata c4lapB "BBB").lapTimeSeconds = some 82 ∧
    compare_drivers_telemetry c4session "AAA" "BBB" 1 =
      Except.ok (some (extract_lap_metadata c4lapA "AAA"), none,
                 some (extract_lap_metadata c4lapB "BBB"), none, none) :=
  ⟨rfl, rfl, rfl⟩

theorem q165over2_eq : q165over2 = 165 / 2 := by
  rw [show q165over2 = Rat.divInt 165 2 from by
    rw [Rat.divInt_eq_div]
    exact_mod_cast (Rat.num_div_den q165over2).symm]
  rw [Rat.divInt_eq_div]
  norm_num

/-- Witness for the amended C4 at the spec scenario: lap times eighty and
eighty-two and a half seconds yield the delta minus five halves. -/
theorem c4_witness :
    compare_drivers_telemetry c4wsession "VER" "LEC" 1 =
      Except.ok (some (extract_lap_metadata c4wlapV "VER"), none,
                 some (extract_lap_metadata c4wlapL "LEC"), none,
                 some ((80 : ℚ) - q165over2)) ∧
    some ((80 : ℚ) - q165over2) = some (-5 / 2 : ℚ) := by
  have h : compare_drivers_telemetry c4wsession "VER" "LEC" 1 =
      Except.ok (some (extract_lap_metadata c4wlapV "VER"), none,
                 some (extract_lap_metadata c4wlapL "LEC"), none,
                 some ((80 : ℚ) - q165over2)) := rfl
  have hd := (c4_delta_truthiness c4wsession "VER" "LEC" 1 _ _ _ _ _ h).1
    (extract_lap_metadata c4wlapV "VER") (extract_lap_metadata c4wlapL "LEC")
    80 q165over2 rfl rfl rfl rfl (by norm_num)
    (by rw [q165over2_eq]; norm_num)
  refine ⟨h.trans (by rw [hd]), ?_⟩
  rw [q165over2_eq]
  norm_num

theorem roundHalfEven_abs_le (q : ℚ) :
    |((roundHalfEven q : ℤ) : ℚ) - q| ≤ 1 / 2 := by
  have h0 : ((⌊q⌋ : ℤ) : ℚ) ≤ q := Int.floor_le q
  have h1 : q < ⌊q⌋ + 1 := Int.lt_floor_add_one q
  unfold roundHalfEven
  split_ifs with ha hb hc
  · rw [abs_le]
    constructor <;> linarith
  · rw [abs_le]
    push_cast
    constructor <;> linarith
  · rw [abs_le]
    constructor <;> linarith
  · rw [abs_le]
    push_cast
    constructor <;> linarith

theorem roundHalfEven_intCast (z : ℤ) : roundHalfEven (z : ℚ) = z := by
  unfold roundHalfEven
  rw [Int.floor_intCast]
  rw [if_pos (by norm_num)]

/-- C7: the minutes and rounded-seconds components produced by the lap-time
formatter reconstruct the lap time within one millisecond when read back as
minutes times sixty plus seconds, the total of 83.456 seconds formats as the
zero-padded string 1:23.456, and the metadata extractor attaches exactly this
formatted string whenever a duration-typed lap time is present. -/
theorem c7_format_roundtrip :
    (∀ t : ℚ, |((fmtMinutes t : ℚ) * 60 + (fmtSecMilli t : ℚ) / 1000) - t| ≤ 1 / 1000) ∧
    lapTimeFormat (10432 / 125) = "1:23.456" ∧
    (∀ (lap : Lap) (d : String),
      (extract_lap_metadata lap d).lapTimeStr = lap.lapTime.map lapTimeFormat) := by
  refine ⟨?_, ?_, fun lap d => rfl⟩
  · intro t
    have key : ((fmtMinutes t : ℚ) * 60 + (fmtSecMilli t : ℚ) / 1000) - t
        = (((roundHalfEven ((t - 60 * fmtMinutes t) * 1000) : ℤ) : ℚ)
            - (t - 60 * fmtMinutes t) * 1000) / 1000 := by
      unfold fmtSecMilli
      ring
    have hb := roundHalfEven_abs_le ((t - 60 * fmtMinutes t) * 1000)
    rw [key, abs_div, show |(1000 : ℚ)| = 1000 from by norm_num]
    linarith
  · have hm : fmtMinutes (10432 / 125) = 1 := by
      unfold fmtMinutes
      exact Int.floor_eq_iff.mpr (by norm_num)
    have hs : fmtSecMilli (10432 / 125) = 23456 := by
      unfold fmtSecMilli
      rw [hm, show ((10432 : ℚ) / 125 - 60 * ((1 : ℤ) : ℚ)) * 1000
            = ((23456 : ℤ) : ℚ) from by push_cast; norm_num]
      exact roundHalfEven_intCast 23456
    unfold lapTimeFormat
    rw [hm, hs]
    rfl

theorem cellsToFloats_fill_rel :
    ∀ (cs : List Cell) (l : List ℚ), cellsToFloats (cs.map fillna) = some l →
      List.Forall₂ floatCellRel cs l := by
  intro cs
  induction cs with
  | nil =>
    intro l h
    simp only [List.map_nil, cellsToFloats, Option.some.injEq] at h
    rw [← h]
    exact List.Forall₂.nil
  | cons c cs ih =>
    intro l h
    simp only [List.map_cons, cellsToFloats] at h
    cases c with
    | num q =>
      simp only [fillna, cellFloat] at h
      cases hcs : cellsToFloats (cs.map fillna) with
      | none => rw [hcs] at h; exact absurd h (by simp)
      | some qs =>
        rw [hcs] at h
        simp only [Option.some.injEq] at h
        rw [← h]
        refine List.Forall₂.cons ⟨by simp, ?_⟩ (ih qs hcs)
        intro q' hq'
        cases hq'
        rfl
    | nan =>
      simp only [fillna, cellFloat] at h
      cases hcs : cellsToFloats (cs.map fillna) with
      | none => rw [hcs] at h; exact absurd h (by simp)
      | some qs =>
        rw [hcs] at h
        simp only [Option.some.injEq] at h
        rw [← h]
        refine List.Forall₂.cons ⟨fun _ => rfl, ?_⟩ (ih qs hcs)
        intro q' hq'
        exact absurd hq' (by simp)
    | bad =>
      simp only [fillna, cellFloat] at h
      exact absurd h (by simp)

theorem cellsToInts_fill_rel :
    ∀ (cs : List Cell) (l : List ℤ), cellsToInts (cs.map fillna) = some l →
      List.Forall₂ intCellRel cs l := by
  intro cs
  induction cs with
  | nil =>
    intro l h
    simp only [List.map_nil, cellsToInts, Option.some.injEq] at h
    rw [← h]
    exact List.Forall₂.nil
  | cons c cs ih =>
    intro l h
    simp only [List.map_cons, cellsToInts] at h
    cases c with
    | num q =>
      simp only [fillna, cellInt] at h
      cases hcs : cellsToInts (cs.map fillna) with
      | none => rw [hcs] at h; exact absurd h (by simp)
      | some zs =>
        rw [hcs] at h
        simp only [Option.some.injEq] at h
        rw [← h]
        refine List.Forall₂.cons ⟨by simp, ?_⟩ (ih zs hcs)
        intro q' hq'
        cases hq'
        rfl
    | nan =>
      simp only [fillna, cellInt] at h
      cases hcs : cellsToInts (cs.map fillna) with
      | none => rw [hcs] at h; exact absurd h (by simp)
      | some zs =>
        rw [hcs] at h
        simp only [Option.some.injEq] at h
        rw [← h]
        refine List.Forall₂.cons ⟨fun _ => ?_, ?_⟩ (ih zs hcs)
        · show truncInt 0 = 0
          unfold truncInt
          rw [if_pos le_rfl]
          exact Int.floor_zero
        · intro q' hq'
          exact absurd hq' (by simp)
    | bad =>
      simp only [fillna, cellInt] at h
      exact absurd h (by simp)

/-- C8: the safe series extractor returns the empty sequence when the channel
is absent; when present, every missing value is replaced by zero before type
coercion, numeric values pass through the float coercion unchanged, the
integer coercion truncates toward zero, and truncation differs from rounding,
as 7.9 truncates to 7 while rounding would give 8. -/
theorem c8_safe_series_extractor (df : Frame) (name : String) :
    (lookupCol name df.cols = none →
      safeToListFloat df name = some [] ∧ safeToListInt df name = some []) ∧
    (∀ cells l, lookupCol name df.cols = some cells →
      safeToListFloat df name = some l → List.Forall₂ floatCellRel cells l) ∧
    (∀ cells l, lookupCol name df.cols = some cells →
      safeToListInt df name = some l → List.Forall₂ intCellRel cells l) ∧
    truncInt (79 / 10) = 7 ∧ roundHalfEven (79 / 10) = 8 := by
  refine ⟨?_, ?_, ?_, ?_, ?_⟩
  · intro h
    constructor
    · unfold safeToListFloat
      rw [h]
    · unfold safeToListInt
      rw [h]
  · intro cells l hlk h
    unfold safeToListFloat at h
    rw [hlk] at h
    exact cellsToFloats_fill_rel cells l h
  · intro cells l hlk h
    unfold safeToListInt at h
    rw [hlk] at h
    exact cellsToInts_fill_rel cells l h
  · unfold truncInt
    rw [if_pos (by norm_num)]
    exact Int.floor_eq_iff.mpr (by norm_num)
  · have hf : ⌊(79 : ℚ) / 10⌋ = 7 := Int.floor_eq_iff.mpr (by norm_num)
    unfold roundHalfEven
    rw [hf]
    rw [if_neg (by norm_num), if_pos (by norm_num)]
    norm_num

/-- Witness for C8 at a concrete frame: the absent RPM channel yields the
empty sequence, and the present nGear channel is zero-filled and truncated to
the integers seven and zero. -/
theorem c8_witness :
    lookupCol "RPM" c8frame.cols = none ∧
    safeToListFloat c8frame "RPM" = some [] ∧
    lookupCol "nGear" c8frame.cols = some [Cell.num (79 / 10), Cell.nan] ∧
    safeToListInt c8frame "nGear" = some [7, 0] ∧
    List.Forall₂ intCellRel [Cell.num (79 / 10), Cell.nan] [7, 0] := by
  have hlkR : lookupCol "RPM" c8frame.cols = none := rfl
  have hlkG : lookupCol "nGear" c8frame.cols = some [Cell.num (79 / 10), Cell.nan] := rfl
  have ht : truncInt (79 / 10) = 7 := (c8_safe_series_extractor c8frame "nGear").2.2.2.1
  have h0 : truncInt 0 = 0 := by
    unfold truncInt
    rw [if_pos le_rfl]
    exact Int.floor_zero
  have hint : safeToListInt c8frame "nGear" = some [7, 0] := by
    simp [safeToListInt, hlkG, cellsToInts, cellInt, fillna, ht, h0]
  exact ⟨hlkR, ((c8_safe_series_extractor c8frame "RPM").1 hlkR).1, hlkG, hint,
    (c8_safe_series_extractor c8frame "nGear").2.2.1 _ _ hlkG hint⟩

theorem idxmin_laptime_none_all :
    ∀ (ls : List Lap), idxmin_laptime ls = none → ∀ l ∈ ls, l.lapTime = none := by
  intro ls
  induction ls with
  | nil => intro _ l hl; exact absurd hl (by simp)
  | cons a as ih =>
    intro h l hl
    simp only [idxmin_laptime] at h
    cases hrec : idxmin_laptime as with
    | none =>
      rw [hrec] at h
      cases hlt : a.lapTime with
      | none =>
        rcases List.mem_cons.mp hl with h1 | h1
        · rw [h1]; exact hlt
        · exact ih hrec l h1
      | some t => rw [hlt] at h; exact absurd h (by simp)
    | some b =>
      rw [hrec] at h
      dsimp only at h
      cases hlt : a.lapTime with
      | none => rw [hlt] at h; exact absurd h (by simp)
      | some t =>
        rw [hlt] at h
        cases hbt : b.lapTime with
        | none => rw [hbt] at h; exact absurd h (by simp)
        | some tb =>
          rw [hbt] at h
          dsimp only at h
          by_cases hle : t ≤ tb
          · rw [if_pos hle] at h; exact absurd h (by simp)
          · rw [if_neg hle] at h; exact absurd h (by simp)

theorem idxmin_laptime_all_none :
    ∀ (ls : List Lap), (∀ l ∈ ls, l.lapTime = none) → idxmin_laptime ls = none := by
  intro ls
  induction ls with
  | nil => intro _; rfl
  | cons a as ih =>
    intro h
    have ha : a.lapTime = none := h a (by simp)
    have has : idxmin_laptime as = none := ih (fun l hl => h l (by simp [hl]))
    simp only [idxmin_laptime]
    rw [has, ha]
    rfl

theorem idxmin_laptime_spec :
    ∀ (ls : List Lap) (lap : Lap), idxmin_laptime ls = some lap →
      lap ∈ ls ∧ ∃ t, lap.lapTime = some t ∧
        ∀ l' ∈ ls, ∀ t', l'.lapTime = some t' → t ≤ t' := by
  intro ls
  induction ls with
  | nil => intro lap h; exact absurd h (by simp [idxmin_laptime])
  | cons a as ih =>
    intro lap h
    simp only [idxmin_laptime] at h
    cases hrec : idxmin_laptime as with
    | none =>
      rw [hrec] at h
      cases hlt : a.lapTime with
      | none => rw [hlt] at h; exact absurd h (by simp)
      | some t =>
        rw [hlt] at h
        simp only [Option.isSome_some, if_true, Option.some.injEq] at h
        subst h
        refine ⟨by simp, t, hlt, ?_⟩
        intro l' hl' t' ht'
        rcases List.mem_cons.mp hl' with h1 | h1
        · rw [h1, hlt] at ht'
          simp only [Option.some.injEq] at ht'
          rw [ht']
        · exact absurd ht' (by simp [idxmin_laptime_none_all as hrec l' h1])
    | some b =>
      rw [hrec] at h
      dsimp only at h
      obtain ⟨hbmem, tb, hbt, hbmin⟩ := ih b hrec
      cases hlt : a.lapTime with
      | none =>
        rw [hlt] at h
        dsimp only at h
        simp only [Option.some.injEq] at h
        subst h
        refine ⟨by simp [hbmem], tb, hbt, ?_⟩
        intro l' hl' t' ht'
        rcases List.mem_cons.mp hl' with h1 | h1
        · rw [h1, hlt] at ht'; exact absurd ht' (by simp)
        · exact hbmin l' h1 t' ht'
      | some t =>
        rw [hlt] at h
        rw [hbt] at h
        dsimp only at h
        by_cases hle : t ≤ tb
        · rw [if_pos hle] at h
          simp only [Option.some.injEq] at h
          subst h
          refine ⟨by simp, t, hlt, ?_⟩
          intro l' hl' t' ht'
          rcases List.mem_cons.mp hl' with h1 | h1
          · rw [h1, hlt] at ht'
            simp only [Option.some.injEq] at ht'
            rw [ht']
          · exact le_trans hle (hbmin l' h1 t' ht')
        · rw [if_neg hle] at h
          simp only [Option.some.injEq] at h
          subst h
          refine ⟨by simp [hbmem], tb, hbt, ?_⟩
          intro l' hl' t' ht'
          rcases List.mem_cons.mp hl' with h1 | h1
          · rw [h1, hlt] at ht'
            simp only [Option.some.injEq] at ht'
            rw [← ht']
            exact le_of_not_le hle
          · exact hbmin l' h1 t' ht'

/-- C10: the fastest-lap query is total at its interface, returning an
optional lap number; when it returns a number, that number belongs to a lap
of the driver whose present lap time is minimal among all of the driver laps
with a present time; it returns none when the driver has no laps and when
every lap time of the driver is missing, the case in which the underlying
idxmin raises and the handler returns none. -/
theorem c10_get_fastest_lap (s : Session) (driver : String) :
    (∀ n, get_fastest_lap s driver = some n →
      ∃ lap, lap ∈ s.laps.filter (fun l => l.driver = driver) ∧ lap.lapNumber = n ∧
        ∃ t, lap.lapTime = some t ∧
          ∀ lap' ∈ s.laps.filter (fun l => l.driver = driver),
            ∀ t', lap'.lapTime = some t' → t ≤ t') ∧
    (s.laps.filter (fun l => l.driver = driver) = [] → get_fastest_lap s driver = none) ∧
    ((∀ lap ∈ s.laps.filter (fun l => l.driver = driver), lap.lapTime = none) →
      get_fastest_lap s driver = none) := by
  refine ⟨?_, ?_, ?_⟩
  · intro n h
    unfold get_fastest_lap at h
    by_cases he : (s.laps.filter (fun l => l.driver = driver)).isEmpty = true
    · rw [if_pos he] at h; exact absurd h (by simp)
    · rw [if_neg he] at h
      cases hmin : idxmin_laptime (s.laps.filter (fun l => l.driver = driver)) with
      | none => rw [hmin] at h; exact absurd h (by simp)
      | some lap =>
        rw [hmin] at h
        simp only [Option.some.injEq] at h
        obtain ⟨hmem, t, ht, hmin'⟩ := idxmin_laptime_spec _ lap hmin
        exact ⟨lap, hmem, h, t, ht, hmin'⟩
  · intro h
    unfold get_fastest_lap
    rw [h]
    rfl
  · intro h
    unfold get_fastest_lap
    by_cases he : (s.laps.filter (fun l => l.driver = driver)).isEmpty = true
    · rw [if_pos he]
    · rw [if_neg he, idxmin_laptime_all_none _ h]

/-- Witness for C10 at a concrete session: the fastest lap of the first
driver is lap two, an unknown driver yields none, the driver whose only lap
time is missing yields none, and the returned lap is minimal. -/
theorem c10_witness :
    get_fastest_lap c10session "VER" = some 2 ∧
    get_fastest_lap c10session "XXX" = none ∧
    get_fastest_lap c10session "HAM" = none ∧
    (∃ lap, lap ∈ c10session.laps.filter (fun l => l.driver = "VER") ∧
      lap.lapNumber = 2 ∧ ∃ t, lap.lapTime = some t ∧
        ∀ lap' ∈ c10session.laps.filter (fun l => l.driver = "VER"),
          ∀ t', lap'.lapTime = some t' → t ≤ t') := by
  have h1 : get_fastest_lap c10session "VER" = some 2 := by decide
  exact ⟨h1, (c10_get_fastest_lap c10session "XXX").2.1 (by decide),
    (c10_get_fastest_lap c10session "HAM").2.2 (by decide),
    (c10_get_fastest_lap c10session "VER").1 2 h1⟩

end DataProc

namespace SpeedExt

theorem npLinspace_length (a b : ℚ) (n : ℕ) : (npLinspace a b n).length = n := by
  unfold npLinspace
  rw [List.length_map, List.length_range]

theorem npLinspace_getD (a b : ℚ) (n i : ℕ) (h : i < n) :
    (npLinspace a b n).getD i 0 = a + (b - a) * i / (n - 1) := by
  have hlen : i < (npLinspace a b n).length := by
    rw [npLinspace_length]
    exact h
  rw [List.getD_eq_getElem _ 0 hlen]
  unfold npLinspace
  rw [List.getElem_map, List.getElem_range]

theorem interpList_length :
    ∀ (xs xp fp ys : List ℚ), interpList xs xp fp = some ys → ys.length = xs.length := by
  intro xs
  induction xs with
  | nil =>
    intro xp fp ys h
    simp only [interpList, Option.some.injEq] at h
    rw [← h]
  | cons x rest ih =>
    intro xp fp ys h
    simp only [interpList] at h
    cases hy : npInterp x xp fp with
    | none => rw [hy] at h; exact absurd h (by simp)
    | some y =>
      rw [hy] at h
      cases hys : interpList rest xp fp with
      | none => rw [hys] at h; exact absurd h (by simp)
      | some ys' =>
        rw [hys] at h
        simp only [Option.some.injEq] at h
        rw [← h]
        simp [ih xp fp ys' hys]

theorem interpList_getD :
    ∀ (xs xp fp ys : List ℚ), interpList xs xp fp = some ys →
      ∀ i, i < xs.length → npInterp (xs.getD i 0) xp fp = some (ys.getD i 0) := by
  intro xs
  induction xs with
  | nil => intro xp fp ys _ i hi; exact absurd hi (by simp)
  | cons x rest ih =>
    intro xp fp ys h i hi
    simp only [interpList] at h
    cases hy : npInterp x xp fp with
    | none => rw [hy] at h; exact absurd h (by simp)
    | some y =>
      rw [hy] at h
      cases hys : interpList rest xp fp with
      | none => rw [hys] at h; exact absurd h (by simp)
      | some ys' =>
        rw [hys] at h
        simp only [Option.some.injEq] at h
        rw [← h]
        cases i with
        | zero => simpa using hy
        | succ j =>
          simp only [List.getD_cons_succ]
          exact ih xp fp ys' hys j (by simpa using hi)

theorem npInterp_isSome (x : ℚ) (xp fp : List ℚ) (hne : xp ≠ [])
    (hlen : xp.length = fp.length) : (npInterp x xp fp).isSome = true := by
  unfold npInterp
  rw [if_pos hlen]
  cases xp with
  | nil => exact absurd rfl hne
  | cons x0 xs =>
    cases fp with
    | nil => simp at hlen
    | cons y0 ys => simp

theorem npInterp_none (x : ℚ) (xp fp : List ℚ)
    (h : xp = [] ∨ xp.length ≠ fp.length) : npInterp x xp fp = none := by
  unfold npInterp
  rcases h with h | h
  · subst h
    by_cases hl : ([] : List ℚ).length = fp.length
    · rw [if_pos hl]
    · rw [if_neg hl]
  · rw [if_neg h]

theorem interpList_none_of_bad (xs xp fp : List ℚ) (hxs : xs ≠ [])
    (h : xp = [] ∨ xp.length ≠ fp.length) : interpList xs xp fp = none := by
  cases xs with
  | nil => exact absurd rfl hxs
  | cons x rest =>
    simp only [interpList]
    rw [npInterp_none x xp fp h]

theorem interpList_isSome (xs xp fp : List ℚ) (hne : xp ≠ [])
    (hlen : xp.length = fp.length) : (interpList xs xp fp).isSome = true := by
  induction xs with
  | nil => simp [interpList]
  | cons x rest ih =>
    simp only [interpList]
    obtain ⟨y, hy⟩ := Option.isSome_iff_exists.mp (npInterp_isSome x xp fp hne hlen)
    obtain ⟨ys, hys⟩ := Option.isSome_iff_exists.mp ih
    rw [hy, hys]
    rfl

theorem interpList_single (xs : List ℚ) (x0 y0 : ℚ) :
    interpList xs [x0] [y0] = some (xs.map fun _ => y0) := by
  induction xs with
  | nil => rfl
  | cons x rest ih =>
    have hx : npInterp x [x0] [y0] = some y0 := by
      unfold npInterp
      rw [if_pos (show ([x0] : List ℚ).length = ([y0] : List ℚ).length from rfl)]
      simp [interpGo]
    simp only [interpList, hx, ih, List.map_cons]

theorem calculate_delta_single (t1 t2 : Trace) (M a b c e : ℚ)
    (h1 : t1.distance = [a]) (h2 : t1.speed = [b])
    (h3 : t2.distance = [c]) (h4 : t2.speed = [e]) :
    calculate_delta t1 t2 M =
      some { distance := npLinspace 0 M 200,
             delta := List.zipWith (fun p q => p - q)
               ((npLinspace 0 M 200).map fun _ => b)
               ((npLinspace 0 M 200).map fun _ => e),
             driver1 := t1.driver, driver2 := t2.driver } := by
  simp only [calculate_delta, h1, h2, h3, h4, interpList_single]

/-- C6: whenever the delta curve is computed, its distance grid has exactly
200 points, evenly spaced from zero to the maximal distance inclusive and
independent of the input sample counts, and each delta entry is the resampled
speed of driver one at that grid point minus the resampled speed of driver
two there. -/
theorem c6_delta_grid (t1 t2 : Trace) (M : ℚ) (d : DeltaData)
    (h : calculate_delta t1 t2 M = some d) :
    d.distance.length = 200 ∧ d.delta.length = 200 ∧
    (∀ i : ℕ, i < 200 → d.distance.getD i 0 = M * i / 199) ∧
    d.distance.getD 0 0 = 0 ∧ d.distance.getD 199 0 = M ∧
    (∀ i : ℕ, i < 200 → ∃ va vb,
      npInterp (d.distance.getD i 0) t1.distance t1.speed = some va ∧
      npInterp (d.distance.getD i 0) t2.distance t2.speed = some vb ∧
      d.delta.getD i 0 = va - vb) := by
  simp only [calculate_delta] at h
  cases hs1 : interpList (npLinspace 0 M 200) t1.distance t1.speed with
  | none => rw [hs1] at h; exact absurd h (by simp)
  | some s1 =>
    rw [hs1] at h
    cases hs2 : interpList (npLinspace 0 M 200) t2.distance t2.speed with
    | none => rw [hs2] at h; exact absurd h (by simp)
    | some s2 =>
      rw [hs2] at h
      simp only [Option.some.injEq] at h
      subst h
      have hl1 : s1.length = 200 := by
        rw [interpList_length _ _ _ _ hs1, npLinspace_length]
      have hl2 : s2.length = 200 := by
        rw [interpList_length _ _ _ _ hs2, npLinspace_length]
      have hgrid : ∀ i : ℕ, i < 200 →
          (npLinspace 0 M 200).getD i 0 = M * i / 199 := by
        intro i hi
        rw [npLinspace_getD 0 M 200 i hi]
        norm_num
      refine ⟨npLinspace_length 0 M 200, ?_, hgrid, ?_, ?_, ?_⟩
      · simp only [List.length_zipWith, List.length_map, npLinspace_length, hl1, hl2]
        exact Nat.min_self 200
      · rw [hgrid 0 (by norm_num)]
        norm_num
      · rw [hgrid 199 (by norm_num)]
        rw [mul_div_assoc]
        norm_num
      · intro i hi
        refine ⟨s1.getD i 0, s2.getD i 0, ?_, ?_, ?_⟩
        · exact interpList_getD _ _ _ _ hs1 i (by rw [npLinspace_length]; exact hi)
        · exact interpList_getD _ _ _ _ hs2 i (by rw [npLinspace_length]; exact hi)
        · have hzl : i < (List.zipWith (fun p q => p - q) s1 s2).length := by
            simp only [List.length_zipWith, hl1, hl2]
            simpa using hi
          rw [List.getD_eq_getElem _ 0 hzl, List.getElem_zipWith,
            List.getD_eq_getElem s1 0 (by rw [hl1]; exact hi),
            List.getD_eq_getElem s2 0 (by rw [hl2]; exact hi)]

/-- Witness for C6 at concrete traces: the delta is computed and has the
200-point grid running from zero to the maximal distance inclusive. -/
theorem c6_witness :
    calculate_delta c6t1 c6t2 199 = some c6d ∧ c6d.distance.length = 200 ∧
    c6d.delta.length = 200 ∧ c6d.distance.getD 0 0 = 0 ∧
    c6d.distance.getD 199 0 = 199 := by
  have h : calculate_delta c6t1 c6t2 199 = some c6d :=
    calculate_delta_single c6t1 c6t2 199 0 5 0 3 rfl rfl rfl rfl
  obtain ⟨l1, l2, _, hz, hlast, _⟩ := c6_delta_grid c6t1 c6t2 199 c6d h
  exact ⟨h, l1, l2, hz, hlast⟩

/-- C9: a failing interpolation, as with an empty distance sequence or with
channel arrays of unequal lengths, makes the whole delta none, and a computed
delta is never partial: both its sequences always have the full 200 points. -/
theorem c9_delta_all_or_nothing (t1 t2 : Trace) (M : ℚ) :
    ((t1.distance = [] ∨ t2.distance = [] ∨
      t1.distance.length ≠ t1.speed.length ∨ t2.distance.length ≠ t2.speed.length) →
      calculate_delta t1 t2 M = none) ∧
    (∀ d, calculate_delta t1 t2 M = some d →
      d.distance.length = 200 ∧ d.delta.length = 200) := by
  have hgridne : npLinspace 0 M 200 ≠ [] := by
    intro hc
    have hh := npLinspace_length 0 M 200
    rw [hc] at hh
    simp at hh
  constructor
  · intro hbad
    simp only [calculate_delta]
    have h1bad : (t1.distance = [] ∨ t1.distance.length ≠ t1.speed.length) →
        interpList (npLinspace 0 M 200) t1.distance t1.speed = none := fun hb =>
      interpList_none_of_bad _ _ _ hgridne hb
    have h2bad : (t2.distance = [] ∨ t2.distance.length ≠ t2.speed.length) →
        interpList (npLinspace 0 M 200) t2.distance t2.speed = none := fun hb =>
      interpList_none_of_bad _ _ _ hgridne hb
    rcases hbad with h | h | h | h
    · rw [h1bad (Or.inl h)]
    · cases hs1 : interpList (npLinspace 0 M 200) t1.distance t1.speed with
      | none => rfl
      | some s1 => rw [h2bad (Or.inl h)]
    · rw [h1bad (Or.inr h)]
    · cases hs1 : interpList (npLinspace 0 M 200) t1.distance t1.speed with
      | none => rfl
      | some s1 => rw [h2bad (Or.inr h)]
  · intro d h
    simp only [calculate_delta] at h
    cases hs1 : interpList (npLinspace 0 M 200) t1.distance t1.speed with
    | none => rw [hs1] at h; exact absurd h (by simp)
    | some s1 =>
      rw [hs1] at h
      cases hs2 : interpList (npLinspace 0 M 200) t2.distance t2.speed with
      | none => rw [hs2] at h; exact absurd h (by simp)
      | some s2 =>
        rw [hs2] at h
        simp only [Option.some.injEq] at h
        subst h
        refine ⟨npLinspace_length 0 M 200, ?_⟩
        simp only [List.length_zipWith,
          interpList_length _ _ _ _ hs1, interpList_length _ _ _ _ hs2,
          npLinspace_length]
        exact Nat.min_self 200

/-- Witness for C9 at concrete traces: an empty distance sequence makes the
whole delta none, and a successful delta carries full 200-point sequences. -/
theorem c9_witness :
    calculate_delta c9empty c9t1 5 = none ∧
    calculate_delta c9t1 c9t2 3 = some c9d ∧
    c9d.distance.length = 200 ∧ c9d.delta.length = 200 := by
  have h2 : calculate_delta c9t1 c9t2 3 = some c9d :=
    calculate_delta_single c9t1 c9t2 3 0 4 0 1 rfl rfl rfl rfl
  obtain ⟨l1, l2⟩ := (c9_delta_all_or_nothing c9t1 c9t2 3).2 c9d h2
  exact ⟨(c9_delta_all_or_nothing c9empty c9t1 5).1 (Or.inl rfl), h2, l1, l2⟩

theorem head?_mem {α : Type} (l : List α) (a : α) (h : l.head? = some a) : a ∈ l := by
  cases l with
  | nil => exact absurd h (by simp)
  | cons x xs =>
    simp only [List.head?_cons, Option.some.injEq] at h
    rw [← h]
    exact List.mem_cons_self x xs

theorem idxmin_laptime_mem :
    ∀ (ls : List SLap) (lap : SLap), idxmin_laptime ls = some lap → lap ∈ ls := by
  intro ls
  induction ls with
  | nil => intro lap h; exact absurd h (by simp [idxmin_laptime])
  | cons a as ih =>
    intro lap h
    simp only [idxmin_laptime] at h
    cases hrec : idxmin_laptime as with
    | none =>
      rw [hrec] at h
      by_cases hs : a.lapTime.isSome = true
      · rw [if_pos hs] at h
        simp only [Option.some.injEq] at h
        rw [← h]
        exact List.mem_cons_self a as
      · rw [if_neg hs] at h
        exact absurd h (by simp)
    | some b =>
      rw [hrec] at h
      dsimp only at h
      have hbmem : b ∈ as := ih b hrec
      cases hlt : a.lapTime with
      | none =>
        rw [hlt] at h
        simp only [Option.some.injEq] at h
        rw [← h]
        exact List.mem_cons_of_mem a hbmem
      | some t =>
        rw [hlt] at h
        cases hbt : b.lapTime with
        | none =>
          rw [hbt] at h
          simp only [Option.some.injEq] at h
          rw [← h]
          exact List.mem_cons_self a as
        | some tb =>
          rw [hbt] at h
          dsimp only at h
          by_cases hle : t ≤ tb
          · rw [if_pos hle] at h
            simp only [Option.some.injEq] at h
            rw [← h]
            exact List.mem_cons_self a as
          · rw [if_neg hle] at h
            simp only [Option.some.injEq] at h
            rw [← h]
            exact List.mem_cons_of_mem a hbmem

theorem selectLap_mem (dl : List SLap) (ln : Option ℤ) (lt : String) (lap : SLap)
    (h : selectLap dl ln lt = some lap) : lap ∈ dl := by
  unfold selectLap at h
  cases ln with
  | some n =>
    exact List.mem_of_mem_filter (head?_mem _ lap h)
  | none =>
    by_cases hf : lt = "fastest"
    · rw [if_pos hf] at h
      by_cases hv : (dl.filter (fun l => l.lapTime.isSome)).isEmpty = true
      · rw [if_pos hv] at h
        exact absurd h (by simp)
      · rw [if_neg hv] at h
        exact List.mem_of_mem_filter (idxmin_laptime_mem _ lap h)
    · rw [if_neg hf] at h
      exact head?_mem _ lap h

theorem processDriver_trace (s : SSession) (ln : Option ℤ) (lt : String)
    (d : String) (tr : Trace) (h : processDriver s ln lt d = some tr) :
    ∃ lap ∈ s.laps, ∃ tel, lap.telemetry = some tel ∧ tel.nrows ≠ 0 ∧
      tr.distance = tel.distance ∧ tr.speed = tel.speed := by
  simp only [processDriver] at h
  by_cases he : (s.laps.filter (fun l => l.driver = d)).isEmpty = true
  · rw [if_pos he] at h
    exact absurd h (by simp)
  · rw [if_neg he] at h
    cases hsel : selectLap (s.laps.filter (fun l => l.driver = d)) ln lt with
    | none => rw [hsel] at h; exact absurd h (by simp)
    | some lap =>
      rw [hsel] at h
      dsimp only at h
      cases htel : lap.telemetry with
      | none => rw [htel] at h; exact absurd h (by simp)
      | some tel =>
        rw [htel] at h
        dsimp only at h
        by_cases hn : tel.nrows = 0
        · rw [if_pos hn] at h
          exact absurd h (by simp)
        · rw [if_neg hn] at h
          simp only [Option.some.injEq] at h
          have hmem : lap ∈ s.laps :=
            List.mem_of_mem_filter (selectLap_mem _ ln lt lap hsel)
          exact ⟨lap, hmem, tel, htel, hn, by rw [← h], by rw [← h]⟩

theorem wfb_tel (s : SSession) (hwf : s.wfb = true) (lap : SLap)
    (hmem : lap ∈ s.laps) (tel : STelemetry) (htel : lap.telemetry = some tel) :
    tel.distance.length = tel.nrows ∧ tel.speed.length = tel.nrows ∧
    tel.throttle.length = tel.nrows ∧ tel.brake.length = tel.nrows := by
  have h1 := (List.all_eq_true.mp hwf) lap hmem
  unfold SLap.wfb at h1
  rw [htel] at h1
  dsimp only at h1
  unfold STelemetry.wfb at h1
  simp only [Bool.and_eq_true, beq_iff_eq] at h1
  exact ⟨h1.1.1.1, h1.1.1.2, h1.1.2, h1.2⟩

/-- C1 as amended: the delta field of the aligner result is governed by the
number of successfully produced traces, not by the number of requested
drivers: with any other trace count the delta is absent, and with exactly two
traces from a well-formed session the delta curve is always computed. -/
theorem c1_delta_iff_two_traces (s : SSession) (drivers : List String)
    (lapNumber : Option ℤ) (lapType : String) (hwf : s.wfb = true) :
    ((extract_speed_traces s drivers lapNumber lapType).traces.length ≠ 2 →
      (extract_speed_traces s drivers lapNumber lapType).delta = none) ∧
    ((extract_speed_traces s drivers lapNumber lapType).traces.length = 2 →
      ((extract_speed_traces s drivers lapNumber lapType).delta).isSome = true) := by
  rcases htr : drivers.filterMap (processDriver s lapNumber lapType) with
    _ | ⟨t1, _ | ⟨t2, _ | ⟨t3, rest⟩⟩⟩
  · constructor
    · intro _
      simp [extract_speed_traces, htr]
    · intro habs
      simp [extract_speed_traces, htr] at habs
  · constructor
    · intro _
      simp [extract_speed_traces, htr]
    · intro habs
      simp [extract_speed_traces, htr] at habs
  · have hmem1 : t1 ∈ drivers.filterMap (processDriver s lapNumber lapType) := by
      rw [htr]; exact List.mem_cons_self _ _
    have hmem2 : t2 ∈ drivers.filterMap (processDriver s lapNumber lapType) := by
      rw [htr]; exact List.mem_cons_of_mem _ (List.mem_cons_self _ _)
    obtain ⟨d1, _, hf1⟩ := List.mem_filterMap.mp hmem1
    obtain ⟨d2, _, hf2⟩ := List.mem_filterMap.mp hmem2
    obtain ⟨lap1, hlap1, tel1, htel1, hn1, hdist1, hspeed1⟩ :=
      processDriver_trace s lapNumber lapType d1 t1 hf1
    obtain ⟨lap2, hlap2, tel2, htel2, hn2, hdist2, hspeed2⟩ :=
      processDriver_trace s lapNumber lapType d2 t2 hf2
    obtain ⟨hdl1, hsl1, _, _⟩ := wfb_tel s hwf lap1 hlap1 tel1 htel1
    obtain ⟨hdl2, hsl2, _, _⟩ := wfb_tel s hwf lap2 hlap2 tel2 htel2
    have hne1 : t1.distance ≠ [] := by
      rw [hdist1]
      intro hc
      rw [hc] at hdl1
      exact hn1 (by simpa using hdl1.symm)
    have hne2 : t2.distance ≠ [] := by
      rw [hdist2]
      intro hc
      rw [hc] at hdl2
      exact hn2 (by simpa using hdl2.symm)
    have hlen1 : t1.distance.length = t1.speed.length := by
      rw [hdist1, hspeed1, hdl1, hsl1]
    have hlen2 : t2.distance.length = t2.speed.length := by
      rw [hdist2, hspeed2, hdl2, hsl2]
    constructor
    · intro hne
      exact absurd (by simp [extract_speed_traces, htr]) hne
    · intro _
      simp only [extract_speed_traces, htr]
      simp only [List.isEmpty_cons, Bool.false_eq_true, if_false]
      simp only [calculate_delta]
      obtain ⟨s1v, hs1v⟩ := Option.isSome_iff_exists.mp
        (interpList_isSome (npLinspace 0 (maxDistanceOf [t1, t2]) 200)
          t1.distance t1.speed hne1 hlen1)
      obtain ⟨s2v, hs2v⟩ := Option.isSome_iff_exists.mp
        (interpList_isSome (npLinspace 0 (maxDistanceOf [t1, t2]) 200)
          t2.distance t2.speed hne2 hlen2)
      rw [hs1v, hs2v]
      rfl
  · constructor
    · intro _
      simp [extract_speed_traces, htr]
    · intro habs
      simp [extract_speed_traces, htr] at habs

/-- Counterexample to C1 as stated: the aligner is called with three drivers
of which one yields no telemetry, so only two traces are produced, and the
result then carries a computed delta curve, not an absent delta field. -/
theorem c1_counterexample :
    c1lapC.telemetry = none ∧
    (extract_speed_traces c1session ["AAA", "BBB", "CCC"] none "fastest").traces.length = 2 ∧
    (extract_speed_traces c1session ["AAA", "BBB", "CCC"] none "fastest").delta ≠ none := by
  refine ⟨rfl, by decide, ?_⟩
  have htr : (["AAA", "BBB", "CCC"] : List String).filterMap
      (processDriver c1session none "fastest") = [c1trA, c1trB] := by decide
  simp only [extract_speed_traces, htr]
  simp only [List.isEmpty_cons, Bool.false_eq_true, if_false]
  rw [calculate_delta_single c1trA c1trB (maxDistanceOf [c1trA, c1trB]) 0 100 0 90
    rfl rfl rfl rfl]
  simp

/-- Witness for the amended C1 at the three-driver session: the session is
well formed, exactly two traces are produced, and the delta is computed. -/
theorem c1_witness :
    c1session.wfb = true ∧
    (extract_speed_traces c1session ["AAA", "BBB", "CCC"] none "fastest").traces.length = 2 ∧
    ((extract_speed_traces c1session ["AAA", "BBB", "CCC"] none "fastest").delta).isSome
      = true := by
  refine ⟨by decide, by decide, ?_⟩
  exact (c1_delta_iff_two_traces c1session ["AAA", "BBB", "CCC"] none "fastest"
    (by decide)).2 (by decide)

end SpeedExt
